import Mathlib

/-!
Verification of the element-tagging, extraction-truncation, configuration-loading
and locator-sanitizing logic of `src/tools/browser/visiblePage.ts`.

The page-side JavaScript is shallowly embedded: DOM elements become explicit
records of the data the code reads (tag name, attributes, class list, computed
style, client-rectangle count), the DOM tree becomes an inductive tree, the
browser's CSS-selector matcher becomes an abstract oracle
`sm : String → ElemData → Bool` (the code only ever calls `el.closest(sel)`,
i.e. asks whether the element itself or an ancestor matches a selector), and
JavaScript string builtins (`trim`, `slice`, `toUpperCase`, `includes`,
truthiness of strings, `x || y`) are re-implemented over `List Char` so that
every definition evaluates inside the kernel.
-/

namespace VisiblePage

/-! ## JavaScript string primitives -/

/-- Whitespace characters recognised by JavaScript's `String.prototype.trim`
and by the `\s` regex class. -/
def jsWhitespace (c : Char) : Bool :=
  c = ' ' || c = '\t' || c = '\n' || c = '\r' ||
  c.toNat = 11 || c.toNat = 12 ||
  c.toNat = 0xa0 || c.toNat = 0x1680 ||
  (0x2000 ≤ c.toNat && c.toNat ≤ 0x200a) ||
  c.toNat = 0x2028 || c.toNat = 0x2029 || c.toNat = 0x202f ||
  c.toNat = 0x205f || c.toNat = 0x3000 || c.toNat = 0xfeff

/-- JavaScript `s.trim()`. -/
def jsTrim (s : String) : String :=
  ⟨(((s.data.dropWhile jsWhitespace).reverse.dropWhile jsWhitespace).reverse)⟩

/-- JavaScript `s.slice(0, n)` for a non-negative bound `n`. -/
def jsTake (s : String) (n : Nat) : String :=
  ⟨s.data.take n⟩

/-- JavaScript `s.toUpperCase()` (ASCII letters; tag names are ASCII). -/
def jsToUpper (s : String) : String :=
  ⟨s.data.map Char.toUpper⟩

/-- JavaScript `s.startsWith(p)`. -/
def jsStartsWith (s p : String) : Bool :=
  p.data.isPrefixOf s.data

/-- Whether `sub` occurs as a contiguous run inside `l`. -/
def containsSeq (sub : List Char) : List Char → Bool
  | [] => sub.isEmpty
  | c :: rest => sub.isPrefixOf (c :: rest) || containsSeq sub rest

/-- JavaScript `s.includes(sub)`. -/
def jsIncludes (s sub : String) : Bool :=
  containsSeq sub.data s.data

/-- JavaScript string truthiness: the empty string is falsy. -/
def jsTruthyStr (s : String) : Bool :=
  s ≠ ""

/-- JavaScript truthiness of a nullable string (`null` and `""` are falsy). -/
def jsTruthy (o : Option String) : Bool :=
  match o with
  | some s => s ≠ ""
  | none => false

/-- JavaScript `a || b` on nullable strings: `a` unless `a` is `null` or `""`. -/
def jsOr (a b : Option String) : Option String :=
  match a with
  | some s => if s = "" then b else some s
  | none => b

/-- JavaScript `x || null` applied to a string: `null` when `x` is empty. -/
def truthyOrNull (s : String) : Option String :=
  if s = "" then none else some s

/-! ## DOM element model

`ElemData` records exactly the per-element observations the page script makes:
`el.tagName`, `el instanceof HTMLElement` / `HTMLInputElement` /
`HTMLTextAreaElement` / `HTMLSelectElement`, `el.getClientRects().length`,
the three computed-style properties read by `isVisible`, `el.getAttribute`,
`el.classList`, and whether `el.setAttribute` succeeds (the source wraps the
write in `try`/`catch` and swallows failures). -/

structure ElemData where
  tagName : String
  isHTMLElement : Bool
  isInputElement : Bool
  isTextAreaElement : Bool
  isSelectElement : Bool
  clientRectsCount : Nat
  styleVisibility : String
  styleDisplay : String
  styleOpacity : String
  attrs : List (String × String)
  classList : List String
  canSetAttr : Bool
deriving DecidableEq, Repr

/-- A DOM node under `document.body`: an element with its children, or a text
node with its `textContent`. -/
inductive DomNode where
  | elem (data : ElemData) (children : List DomNode)
  | text (content : String)

/-- `el.getAttribute(k)`: the first binding of `k`, or `null`. -/
def findAttr (attrs : List (String × String)) (k : String) : Option String :=
  (attrs.find? (fun p => p.1 = k)).map (fun p => p.2)

/-- `el.getAttribute(k)` on the element model. -/
def getAttr (d : ElemData) (k : String) : Option String :=
  findAttr d.attrs k

/-- `el.setAttribute(k, v)` on the attribute list: overwrite the first binding
of `k`, or append a new one. -/
def setAttrList (attrs : List (String × String)) (k v : String) : List (String × String) :=
  match attrs with
  | [] => [(k, v)]
  | (k', v') :: rest => if k' = k then (k, v) :: rest else (k', v') :: setAttrList rest k v

/-- `el.setAttribute(k, v)` on the element model. -/
def setAttr (d : ElemData) (k v : String) : ElemData :=
  { d with attrs := setAttrList d.attrs k v }

/-- The configuration consumed by the tagging pass (`VisibleTagConfig`). -/
structure VisibleTagConfig where
  excludedSelectors : List String
  iconClassKeywords : List String
  directTextMaxLen : Nat
  specialTagNames : List String
deriving DecidableEq, Repr

/-- A record `{id, text}` pushed into `results` by the tagging pass. -/
structure TagRecord where
  id : String
  text : String
deriving DecidableEq, Repr

/-- The mutable state of the tagging loop: `idCounter` and `results`. -/
structure TagState where
  idCounter : Nat
  results : List TagRecord
deriving DecidableEq, Repr

/-! ## Label-resolution strategies (source lines 287-371) -/

/-- `isExcluded` (line 287): some configured selector matches the element or an
ancestor (`el.closest(sel) !== null`); `selfAnc` is the element followed by its
ancestors, `sm` the browser's selector matcher. -/
def isExcluded (cfg : VisibleTagConfig) (sm : String → ElemData → Bool)
    (selfAnc : List ElemData) : Bool :=
  cfg.excludedSelectors.any (fun sel => selfAnc.any (fun d => sm sel d))

/-- `getSpecialTagText` (line 290): the upper-cased tag name when it matches a
configured special tag name case-insensitively. -/
def getSpecialTagText (cfg : VisibleTagConfig) (d : ElemData) : Option String :=
  let tagName := jsToUpper d.tagName
  if cfg.specialTagNames.any (fun t => jsToUpper t = tagName) then some tagName else none

/-- `getPlaceholderOrNameText` (line 300): `placeholder`/`data-placeholder`
(combined by raw JS truthiness, then trimmed), else `aria-label`, else `name`;
on success the label is `tagName:value`. -/
def getPlaceholderOrNameText (d : ElemData) : Option String :=
  let placeholder :=
    truthyOrNull (jsTrim ((jsOr (getAttr d "placeholder")
      (jsOr (getAttr d "data-placeholder") (some ""))).getD ""))
  let aria := truthyOrNull (jsTrim ((getAttr d "aria-label").getD ""))
  let name := truthyOrNull (jsTrim ((getAttr d "name").getD ""))
  let val := jsOr placeholder (jsOr aria name)
  match val with
  | some v => some (d.tagName ++ ":" ++ v)
  | none => none

/-- `getFormControlText` (line 316): for input/textarea/select controls only,
`title` else `id` (trimmed, by JS truthiness); label is `tagName:value`. -/
def getFormControlText (d : ElemData) : Option String :=
  if d.isInputElement || d.isTextAreaElement || d.isSelectElement then
    let text := jsOr (truthyOrNull (jsTrim ((getAttr d "title").getD "")))
      (jsOr (truthyOrNull (jsTrim ((getAttr d "id").getD ""))) none)
    match text with
    | some t => some (d.tagName ++ ":" ++ t)
    | none => none
  else none

/-- Inner scan of `getIconClassText`: first class starting with `icon-` that
contains a configured keyword; that keyword is returned. -/
def iconScan (kws : List String) : List String → Option String
  | [] => none
  | cls :: rest =>
    if cls = "" || !jsStartsWith cls "icon-" then iconScan kws rest
    else
      match kws.find? (fun kw => jsIncludes cls kw) with
      | some kw => some kw
      | none => iconScan kws rest

/-- `getIconClassText` (line 335). -/
def getIconClassText (cfg : VisibleTagConfig) (d : ElemData) : Option String :=
  iconScan cfg.iconClassKeywords d.classList

/-- `getDirectText` (line 348): first child text node whose content is truthy
and trims to a non-empty string; that trimmed string, cut to
`directTextMaxLen` characters. -/
def getDirectText (cfg : VisibleTagConfig) : List DomNode → Option String
  | [] => none
  | DomNode.elem _ _ :: rest => getDirectText cfg rest
  | DomNode.text s :: rest =>
    if s = "" then getDirectText cfg rest
    else
      let t := jsTrim s
      if t = "" then getDirectText cfg rest
      else some (jsTake t cfg.directTextMaxLen)

/-- `isVisible` (line 362): an `HTMLElement` instance, with at least one client
rectangle, whose computed style is not `visibility:hidden`, `display:none` or
`opacity:0`. -/
def isVisible (d : ElemData) : Bool :=
  if !d.isHTMLElement then false
  else if d.clientRectsCount = 0 then false
  else !(d.styleVisibility = "hidden" || d.styleDisplay = "none" || d.styleOpacity = "0")

/-- The four attribute-based strategies chained with `||` (lines 387-391). -/
def chainFour (cfg : VisibleTagConfig) (d : ElemData) : Option String :=
  jsOr (getSpecialTagText cfg d)
    (jsOr (getPlaceholderOrNameText d)
      (jsOr (getFormControlText d) (getIconClassText cfg d)))

/-- `markerText` for one element (lines 387-396): the four-strategy chain, and
when that is falsy and the element is not excluded, the direct-text fallback. -/
def computeMarkerText (cfg : VisibleTagConfig) (sm : String → ElemData → Bool)
    (selfAnc : List ElemData) (d : ElemData) (children : List DomNode) : Option String :=
  let m := chainFour cfg d
  if !jsTruthy m && !isExcluded cfg sm selfAnc then getDirectText cfg children else m

/-- The body of the traversal loop for one element (lines 380-409): skip
invisible elements; otherwise compute `markerText` and, when truthy, assign
`String(idCounter++)`, attempt `setAttribute("data-tag-id", id)` (failures
swallowed), and push `{id, text}`. `anc` lists the ancestors, nearest first. -/
def tagElement (cfg : VisibleTagConfig) (sm : String → ElemData → Bool)
    (anc : List ElemData) (d : ElemData) (children : List DomNode)
    (st : TagState) : ElemData × TagState :=
  if !isVisible d then (d, st)
  else
    match computeMarkerText cfg sm (d :: anc) d children with
    | none => (d, st)
    | some s =>
      if s = "" then (d, st)
      else
        let id := Nat.repr st.idCounter
        let d' := if d.canSetAttr then setAttr d "data-tag-id" id else d
        (d', { idCounter := st.idCounter + 1, results := st.results ++ [⟨id, s⟩] })

mutual

/-- Pre-order walk of one node: visit the element itself (the `TreeWalker`
yields elements only), then its children, with the already-updated element on
the ancestor chain (the source sets `data-tag-id` before moving on). -/
def visitNode (cfg : VisibleTagConfig) (sm : String → ElemData → Bool)
    (anc : List ElemData) : DomNode → TagState → DomNode × TagState
  | DomNode.text s, st => (DomNode.text s, st)
  | DomNode.elem d cs, st =>
    let p := tagElement cfg sm anc d cs st
    let q := visitNodes cfg sm (p.1 :: anc) cs p.2
    (DomNode.elem p.1 q.1, q.2)

/-- Pre-order walk of a sibling list, threading the state left to right. -/
def visitNodes (cfg : VisibleTagConfig) (sm : String → ElemData → Bool)
    (anc : List ElemData) : List DomNode → TagState → List DomNode × TagState
  | [], st => ([], st)
  | n :: ns, st =>
    let p := visitNode cfg sm anc n st
    let q := visitNodes cfg sm anc ns p.2
    (p.1 :: q.1, q.2)

end

/-- One tagging pass of `VisibleTagTool.execute` (lines 373-411): walk every
element under `document.body` in document order with `idCounter` starting at 1,
returning the `results` list and the mutated tree. `body` is the body element's
own data (it sits on every ancestor chain but is not itself visited). -/
def tagPass (cfg : VisibleTagConfig) (sm : String → ElemData → Bool)
    (body : ElemData) (children : List DomNode) : List TagRecord × List DomNode :=
  let r := visitNodes cfg sm [body] children ⟨1, []⟩
  (r.2.results, r.1)

/-! ## Erasure of the tag attribute (proof device for the round-trip claim)

The only DOM mutation the pass performs is writing the `data-tag-id`
attribute. `eraseTagAttr`/`eraseNode` project that attribute away; two trees
with the same projection are indistinguishable to every read the pass makes,
provided the selector matcher itself ignores `data-tag-id`. -/

/-- Remove any `data-tag-id` binding from an element's attributes. -/
def eraseTagAttr (d : ElemData) : ElemData :=
  { d with attrs := d.attrs.filter (fun p => p.1 ≠ "data-tag-id") }

mutual

/-- Remove `data-tag-id` bindings everywhere in a subtree. -/
def eraseNode : DomNode → DomNode
  | DomNode.text s => DomNode.text s
  | DomNode.elem d cs => DomNode.elem (eraseTagAttr d) (eraseNodes cs)

/-- Remove `data-tag-id` bindings everywhere in a sibling list. -/
def eraseNodes : List DomNode → List DomNode
  | [] => []
  | n :: ns => eraseNode n :: eraseNodes ns

end

/-! ## Configuration loading (`readVisibleTagConfig`, source lines 19-58)

The file system, environment and `JSON.parse` are external; they are modelled
by a `ConfigEnv` record carrying the observations the loader makes. Thrown
errors become `Except.error`. -/

/-- A parsed JSON value. -/
inductive Json where
  | null
  | bool (b : Bool)
  | num (n : Int)
  | str (s : String)
  | arr (elems : List Json)
  | obj (fields : List (String × Json))

/-- JavaScript property access `cfg.k` on a parsed JSON value (`undefined`,
i.e. `none`, on non-objects and absent keys). -/
def jsGet (j : Json) (k : String) : Option Json :=
  match j with
  | Json.obj fields => (fields.find? (fun p => p.1 = k)).map (fun p => p.2)
  | _ => none

/-- `Array.isArray` on a possibly-undefined value. -/
def isJsonArray (o : Option Json) : Bool :=
  match o with
  | some (Json.arr _) => true
  | _ => false

/-- The element list of a JSON array (`[]` otherwise). -/
def jsonElems (o : Option Json) : List Json :=
  match o with
  | some (Json.arr l) => l
  | _ => []

/-- External observations made by `readVisibleTagConfig`: the value of
`process.env.VISIBLE_TAG_CONFIG_PATH`, whether `existsSync` finds the file,
and the outcome of `readFileSync` + `JSON.parse` (a parse failure throws). -/
structure ConfigEnv where
  envPath : Option String
  fileExists : Bool
  parseResult : Except String Json

/-- The configuration as returned by the loader: the three arrays are passed
through unvalidated (their elements are whatever JSON held), and
`directTextMaxLen` is a number. -/
structure RawTagConfig where
  excludedSelectors : List Json
  iconClassKeywords : List Json
  specialTagNames : List Json
  directTextMaxLen : Int

/-- `readVisibleTagConfig` (lines 19-58): throw when the env var is unset or
empty, the file is missing, the JSON does not parse, or any of the three
selector/keyword/tag-name fields is not an array; take `directTextMaxLen` when
it is a positive number and fall back to 10 otherwise. The `catch` block
rethrows, so every error propagates. -/
def readVisibleTagConfig (env : ConfigEnv) : Except String RawTagConfig :=
  match env.envPath with
  | none => Except.error "VISIBLE_TAG_CONFIG_PATH is not set"
  | some p =>
    if p = "" then Except.error "VISIBLE_TAG_CONFIG_PATH is not set"
    else if !env.fileExists then Except.error ("Config file not found: " ++ p)
    else
      match env.parseResult with
      | Except.error e => Except.error e
      | Except.ok cfg =>
        if !isJsonArray (jsGet cfg "excludedSelectors") ||
           !isJsonArray (jsGet cfg "iconClassKeywords") ||
           !isJsonArray (jsGet cfg "specialTagNames") then
          Except.error
            "Invalid config: 'excludedSelectors', 'iconClassKeywords' and 'specialTagNames' must be arrays."
        else
          Except.ok
            { excludedSelectors := jsonElems (jsGet cfg "excludedSelectors")
              iconClassKeywords := jsonElems (jsGet cfg "iconClassKeywords")
              specialTagNames := jsonElems (jsGet cfg "specialTagNames")
              directTextMaxLen :=
                match jsGet cfg "directTextMaxLen" with
                | some (Json.num n) => if 0 < n then n else 10
                | _ => 10 }

/-! ## Output truncation (`VisibleTextTool` lines 108-116, `VisibleHtmlTool`
lines 238-243) -/

/-- `typeof args.maxLength === 'number' ? args.maxLength : 20000`. -/
def resolveMaxLength (m : Option Nat) : Nat :=
  match m with
  | some n => n
  | none => 20000

/-- The marker the text tool appends when it truncates. -/
def textTruncationMarker : String :=
  "\n[Output truncated due to size limits]"

/-- The marker the HTML tool appends when it truncates. -/
def htmlTruncationMarker : String :=
  "\n<!-- Output truncated due to size limits -->"

/-- `if (output.length > maxLength) output = output.slice(0, maxLength) + marker`. -/
def truncateWithMarker (output : String) (maxLength : Nat) (marker : String) : String :=
  if output.length > maxLength then ⟨output.data.take maxLength ++ marker.data⟩ else output

/-- The truncation applied by `VisibleTextTool.execute`. -/
def visibleTextOutput (visibleText : String) (maxLengthArg : Option Nat) : String :=
  truncateWithMarker visibleText (resolveMaxLength maxLengthArg) textTruncationMarker

/-- The truncation applied by `VisibleHtmlTool.execute`. -/
def visibleHtmlOutput (htmlContent : String) (maxLengthArg : Option Nat) : String :=
  truncateWithMarker htmlContent (resolveMaxLength maxLengthArg) htmlTruncationMarker

/-! ## Locator sanitizer (`LocatorTool.sanitizeSelectors`, lines 426-461) -/

/-- One character of the regex class used by `hasBadChars` and
`cleanSelector`: U+0000 to U+001F, U+007F to U+009F, the private-use area
U+E000 to U+F8FF, and the specials block U+FFF0 to U+FFFF. -/
def isBadChar (c : Char) : Bool :=
  c.toNat ≤ 0x1f ||
  (0x7f ≤ c.toNat && c.toNat ≤ 0x9f) ||
  (0xe000 ≤ c.toNat && c.toNat ≤ 0xf8ff) ||
  (0xfff0 ≤ c.toNat && c.toNat ≤ 0xffff)

/-- `hasBadChars` (line 434): the selector contains a bad character. -/
def hasBadChars (sel : String) : Bool :=
  sel.data.any isBadChar

/-- `cleanSelector` (line 438): strip every bad character. -/
def cleanSelector (sel : String) : String :=
  ⟨sel.data.filter (fun c => !isBadChar c)⟩

/-- After an `=`, skip `\s*` and test for `""` (the tail of the regex
`=\s*""`). -/
def emptyAttrAfterEq : List Char → Bool
  | [] => false
  | c :: rest =>
    if jsWhitespace c then emptyAttrAfterEq rest
    else
      match c, rest with
      | '"', '"' :: _ => true
      | _, _ => false

/-- Whether `/=\s*""/` matches somewhere in the character list. -/
def hasEmptyAttrPattern : List Char → Bool
  | [] => false
  | c :: rest =>
    (c = '=' && emptyAttrAfterEq rest) || hasEmptyAttrPattern rest

/-- `isValid` (line 442): no `attr=""` pattern. -/
def isValid (sel : String) : Bool :=
  !hasEmptyAttrPattern sel.data

/-- The result object of the external `generateSelector` call, as far as
`sanitizeSelectors` inspects it: an optional `selectors` array (present iff
`Array.isArray(result?.selectors)`) and an optional `selector` string; the
whole result may be `null`/`undefined` (`none`). -/
structure LocatorResult where
  selectors : Option (List String)
  selector : Option String

/-- Lines 427-429: take `result.selectors` when it is an array, else the
one-element list `[result.selector]` filtered by truthiness. -/
def extractSelectors (result : Option LocatorResult) : List String :=
  match result with
  | none => []
  | some r =>
    match r.selectors with
    | some l => l
    | none =>
      match r.selector with
      | some s => if s = "" then [] else [s]
      | none => []

/-- `.filter((_, idx) => idx !== i)` starting at position `j`. -/
def filterIdxFrom (i : Nat) : Nat → List String → List String
  | _, [] => []
  | j, x :: xs =>
    if j = i then filterIdxFrom i (j + 1) xs else x :: filterIdxFrom i (j + 1) xs

/-- `sanitizeSelectors` (lines 426-461): prefer the first original candidate
that has no bad characters and is valid; else the first cleaned candidate that
is valid and non-blank; else index 0; return the cleaned preferred candidate
first, followed by the other cleaned candidates in order. -/
def sanitizeSelectors (result : Option LocatorResult) : List String :=
  let selectors := extractSelectors result
  if selectors = [] then []
  else
    let cleanedSelectors := selectors.map cleanSelector
    let preferredIndex :=
      match selectors.findIdx? (fun sel => !hasBadChars sel && isValid sel) with
      | some i => i
      | none =>
        match cleanedSelectors.findIdx?
            (fun sel => isValid sel && (jsTrim sel).length > 0) with
        | some i => i
        | none => 0
    cleanedSelectors.getD preferredIndex "" ::
      filterIdxFrom preferredIndex 0 cleanedSelectors

/-! ## Specification-side definitions

These follow the words of the specification (not the source) and are compared
against the source-derived definitions above. -/

/-- The placeholder/aria/name strategy as the specification words it: read
`placeholder`, `data-placeholder`, `aria-label`, `name` in order, the first
attribute whose trimmed value is non-empty wins, and the label is
`tagName:value` with that trimmed value. -/
def placeholderAriaNameClaim (d : ElemData) : Option String :=
  let cands :=
    ["placeholder", "data-placeholder", "aria-label", "name"].map
      (fun k => jsTrim ((getAttr d k).getD ""))
  match cands.find? jsTruthyStr with
  | some t => some (d.tagName ++ ":" ++ t)
  | none => none

/-- The placeholder/aria/name strategy as amended: `placeholder` and
`data-placeholder` form one group resolved by raw (untrimmed) JavaScript
truthiness — a whitespace-only `placeholder` wins the group and then trims to
nothing — after which the group value, `aria-label` and `name` are tried in
order, first non-empty trimmed value winning. -/
def placeholderAriaNameAmended (d : ElemData) : Option String :=
  let groupRaw : Option String :=
    match getAttr d "placeholder" with
    | some s => if s = "" then getAttr d "data-placeholder" else some s
    | none => getAttr d "data-placeholder"
  let cands :=
    [jsTrim (groupRaw.getD ""), jsTrim ((getAttr d "aria-label").getD ""),
      jsTrim ((getAttr d "name").getD "")]
  match cands.find? jsTruthyStr with
  | some t => some (d.tagName ++ ":" ++ t)
  | none => none

/-- The sanitizer's preference rule as the specification words it: (a) the
first original candidate that has no bad characters and is valid; (b) else the
first candidate whose cleaned form is valid and non-blank; (c) else index 0. -/
def specPreferredIdx (sels : List String) : Nat :=
  match sels.findIdx? (fun sel => !hasBadChars sel && isValid sel) with
  | some i => i
  | none =>
    match (sels.map cleanSelector).findIdx?
        (fun sel => isValid sel && (jsTrim sel).length > 0) with
    | some i => i
    | none => 0

/-- A selector matcher that never looks at the `data-tag-id` attribute: it
cannot distinguish an element from its `data-tag-id`-erased projection. -/
def TagIdInsensitive (sm : String → ElemData → Bool) : Prop :=
  ∀ sel d, sm sel d = sm sel (eraseTagAttr d)

/-- Decimal digit list of a natural number (reference definition used to
reason about `Nat.repr`). -/
def decDigits (n : Nat) : List Char :=
  if _h : n < 10 then [Nat.digitChar n]
  else decDigits (n / 10) ++ [Nat.digitChar (n % 10)]
decreasing_by exact Nat.div_lt_self (by omega) (by omega)

/-! ## Concrete inputs used by witnesses and counterexamples -/

/-- A plain visible `DIV` with no attributes or classes. -/
def baseElem : ElemData :=
  { tagName := "DIV", isHTMLElement := true, isInputElement := false,
    isTextAreaElement := false, isSelectElement := false, clientRectsCount := 1,
    styleVisibility := "visible", styleDisplay := "block", styleOpacity := "1",
    attrs := [], classList := [], canSetAttr := true }

/-- The `document.body` element of the example pages. -/
def bodyElem : ElemData :=
  { baseElem with tagName := "BODY" }

/-- An `INPUT` with `placeholder="Search"`, plus `title` and `id` attributes. -/
def inputSearchElem : ElemData :=
  { baseElem with
    tagName := "INPUT", isInputElement := true,
    attrs := [("placeholder", "Search"), ("title", "Tooltip"), ("id", "search-box")] }

/-- An SVG element: it renders a client rectangle and has innocuous computed
style, but is not an `HTMLElement` instance. -/
def svgRectElem : ElemData :=
  { baseElem with tagName := "svg", isHTMLElement := false }

/-- A `DIV` whose `placeholder` is whitespace-only while `data-placeholder`
holds the text `X`. -/
def wsPlaceholderElem : ElemData :=
  { baseElem with attrs := [("placeholder", "   "), ("data-placeholder", "X")] }

/-- An element whose computed style is `display:none`. -/
def hiddenElem : ElemData :=
  { baseElem with styleDisplay := "none" }

/-- A visible `DIV` with one direct text child `hi`. -/
def divWithText : DomNode :=
  DomNode.elem baseElem [DomNode.text "hi"]

/-- An empty tag configuration. -/
def cfgEmpty : VisibleTagConfig :=
  { excludedSelectors := [], iconClassKeywords := [], directTextMaxLen := 10,
    specialTagNames := [] }

/-- A configuration excluding `#main`. -/
def cfgExcl : VisibleTagConfig :=
  { excludedSelectors := ["#main"], iconClassKeywords := [], directTextMaxLen := 10,
    specialTagNames := [] }

/-- A configuration whose excluded selector is `[data-tag-id]` — the attribute
the pass itself writes. -/
def tagIdCfg : VisibleTagConfig :=
  { excludedSelectors := ["[data-tag-id]"], iconClassKeywords := [],
    directTextMaxLen := 10, specialTagNames := [] }

/-- A selector matcher that matches nothing. -/
def smFalse : String → ElemData → Bool :=
  fun _ _ => false

/-- A selector matcher that matches everything. -/
def smTrue : String → ElemData → Bool :=
  fun _ _ => true

/-- A selector matcher under which `[data-tag-id]` matches exactly the
elements carrying a `data-tag-id` attribute. -/
def attrMatcher : String → ElemData → Bool :=
  fun sel d => sel = "[data-tag-id]" && d.attrs.any (fun p => p.1 = "data-tag-id")

/-- The selector-generation result of the specification's sanitizer example. -/
def locExampleResult : Option LocatorResult :=
  some { selectors := some ["div[data-x=\"\"]", "button.ok"], selector := none }

/-- A candidate that contains a bad character (U+0000) and an empty-attribute
pattern, so that neither preference (a) nor (b) applies. -/
def badCandidate : String :=
  "\x00a=\"\""

/-- A selector-generation result whose only candidate is `badCandidate`. -/
def locBadResult : Option LocatorResult :=
  some { selectors := some [badCandidate], selector := none }

/-- The parsed JSON of a config file whose `directTextMaxLen` is a string. -/
def cfgBadJson : Json :=
  Json.obj
    [("excludedSelectors", Json.arr []), ("iconClassKeywords", Json.arr []),
     ("specialTagNames", Json.arr []), ("directTextMaxLen", Json.str "big")]

/-- A loader environment for `cfgBadJson`: env var set, file present, JSON
parses. -/
def envBadLen : ConfigEnv :=
  { envPath := some "/etc/visible-tag.json", fileExists := true,
    parseResult := Except.ok cfgBadJson }

/-- A loader environment with the env var unset. -/
def envMissingVar : ConfigEnv :=
  { envPath := none, fileExists := false, parseResult := Except.error "unread" }

/-! ## Helper lemmas on the JavaScript primitives -/

theorem jsOr_truthy (a b : Option String) (h : jsTruthy a = true) : jsOr a b = a := by
  cases a with
  | none => simp [jsTruthy] at h
  | some s =>
    simp [jsTruthy] at h
    simp [jsOr, h]

theorem jsOr_falsy (a b : Option String) (h : jsTruthy a = false) : jsOr a b = b := by
  cases a with
  | none => rfl
  | some s =>
    simp [jsTruthy] at h
    simp [jsOr, h]

theorem jsTruthy_jsOr (a b : Option String) :
    jsTruthy (jsOr a b) = (jsTruthy a || jsTruthy b) := by
  by_cases h : jsTruthy a = true
  · rw [jsOr_truthy a b h, h, Bool.true_or]
  · rw [jsOr_falsy a b (by simpa using h), Bool.eq_false_iff.mpr h, Bool.false_or]

/-! ## Injectivity of `Nat.repr`

`Nat.repr n` is `(Nat.toDigits 10 n).asString`; `toDigitsCore` is fuel-based,
so it is first related to the structural `decDigits`, which is then shown
injective. -/

theorem toDigitsCore_append (fuel n : Nat) (ds : List Char) :
    Nat.toDigitsCore 10 fuel n ds = Nat.toDigitsCore 10 fuel n [] ++ ds := by
  induction fuel generalizing n ds with
  | zero => simp [Nat.toDigitsCore]
  | succ f ih =>
    simp only [Nat.toDigitsCore]
    by_cases h : n / 10 = 0
    · simp [h]
    · simp only [h, if_neg, ite_false]
      rw [ih (n / 10) (Nat.digitChar (n % 10) :: ds),
        ih (n / 10) [Nat.digitChar (n % 10)], List.append_assoc]
      rfl

theorem decDigits_lt (n : Nat) (h : n < 10) : decDigits n = [Nat.digitChar n] := by
  rw [decDigits]
  simp [h]

theorem decDigits_ge (n : Nat) (h : ¬ n < 10) :
    decDigits n = decDigits (n / 10) ++ [Nat.digitChar (n % 10)] := by
  rw [decDigits]
  simp [h]

theorem toDigitsCore_eq_decDigits (fuel n : Nat) (h : n < fuel) :
    Nat.toDigitsCore 10 fuel n [] = decDigits n := by
  induction fuel generalizing n with
  | zero => omega
  | succ f ih =>
    simp only [Nat.toDigitsCore]
    by_cases h10 : n / 10 = 0
    · have hn : n < 10 := by
        by_contra hc
        have h1 : n / 10 < n := Nat.div_lt_self (by omega) (by omega)
        have h2 : 10 * (n / 10) + n % 10 = n := Nat.div_add_mod n 10
        have h3 : n % 10 < 10 := Nat.mod_lt _ (by omega)
        omega
      rw [if_pos h10, decDigits_lt n hn, Nat.mod_eq_of_lt hn]
    · have hn : ¬ n < 10 := fun hlt => h10 (Nat.div_eq_of_lt hlt)
      have hdiv : n / 10 < f := by
        have h1 : n / 10 < n := Nat.div_lt_self (by omega) (by omega)
        omega
      rw [if_neg h10, toDigitsCore_append, ih (n / 10) hdiv, decDigits_ge n hn]

theorem toDigits_eq_decDigits (n : Nat) : Nat.toDigits 10 n = decDigits n :=
  toDigitsCore_eq_decDigits (n + 1) n (Nat.lt_succ_self n)

theorem digitChar_inj_lt : ∀ a < 10, ∀ b < 10, Nat.digitChar a = Nat.digitChar b → a = b := by
  decide

theorem decDigits_ne_nil (n : Nat) : decDigits n ≠ [] := by
  by_cases h : n < 10
  · rw [decDigits_lt n h]
    simp
  · rw [decDigits_ge n h]
    simp

theorem decDigits_injective : ∀ m n : Nat, decDigits m = decDigits n → m = n := by
  intro m
  induction m using Nat.strong_induction_on with
  | _ m ih =>
    intro n h
    by_cases hm : m < 10 <;> by_cases hn : n < 10
    · rw [decDigits_lt m hm, decDigits_lt n hn] at h
      simp at h
      exact digitChar_inj_lt m hm n hn h
    · rw [decDigits_lt m hm, decDigits_ge n hn] at h
      have hlen := congrArg List.length h
      rw [List.length_append] at hlen
      have hl1 : ([Nat.digitChar m] : List Char).length = 1 := rfl
      have hl2 : ([Nat.digitChar (n % 10)] : List Char).length = 1 := rfl
      have hnil : decDigits (n / 10) = [] := List.length_eq_zero.mp (by omega)
      exact absurd hnil (decDigits_ne_nil _)
    · rw [decDigits_ge m hm, decDigits_lt n hn] at h
      have hlen := congrArg List.length h
      rw [List.length_append] at hlen
      have hl1 : ([Nat.digitChar n] : List Char).length = 1 := rfl
      have hl2 : ([Nat.digitChar (m % 10)] : List Char).length = 1 := rfl
      have hnil : decDigits (m / 10) = [] := List.length_eq_zero.mp (by omega)
      exact absurd hnil (decDigits_ne_nil _)
    · rw [decDigits_ge m hm, decDigits_ge n hn] at h
      obtain ⟨h1, h2⟩ := List.append_inj' h rfl
      simp at h2
      have hmod : m % 10 = n % 10 :=
        digitChar_inj_lt (m % 10) (Nat.mod_lt _ (by omega)) (n % 10)
          (Nat.mod_lt _ (by omega)) h2
      have hdivlt : m / 10 < m := Nat.div_lt_self (by omega) (by omega)
      have hdiv : m / 10 = n / 10 := ih (m / 10) hdivlt (n / 10) h1
      have em := Nat.div_add_mod m 10
      have en := Nat.div_add_mod n 10
      omega

theorem natRepr_injective : ∀ m n : Nat, Nat.repr m = Nat.repr n → m = n := by
  intro m n h
  have hd : (Nat.toDigits 10 m).asString.data = (Nat.toDigits 10 n).asString.data :=
    congrArg String.data h
  have : Nat.toDigits 10 m = Nat.toDigits 10 n := hd
  rw [toDigits_eq_decDigits, toDigits_eq_decDigits] at this
  exact decDigits_injective m n this

/-! ## Behaviour of `tagElement` on one element -/

theorem tagElement_invisible (cfg : VisibleTagConfig) (sm : String → ElemData → Bool)
    (anc : List ElemData) (d : ElemData) (cs : List DomNode) (st : TagState)
    (h : isVisible d = false) : tagElement cfg sm anc d cs st = (d, st) := by
  simp [tagElement, h]

theorem tagElement_falsyMarker (cfg : VisibleTagConfig) (sm : String → ElemData → Bool)
    (anc : List ElemData) (d : ElemData) (cs : List DomNode) (st : TagState)
    (h : jsTruthy (computeMarkerText cfg sm (d :: anc) d cs) = false) :
    tagElement cfg sm anc d cs st = (d, st) := by
  unfold tagElement
  by_cases hv : isVisible d
  · rw [hv]
    cases hm : computeMarkerText cfg sm (d :: anc) d cs with
    | none => simp
    | some s =>
      rw [hm] at h
      simp [jsTruthy] at h
      simp [h]
  · simp [Bool.eq_false_iff.mpr hv]

theorem tagElement_truthyMarker (cfg : VisibleTagConfig) (sm : String → ElemData → Bool)
    (anc : List ElemData) (d : ElemData) (cs : List DomNode) (st : TagState) (s : String)
    (hv : isVisible d = true)
    (hm : computeMarkerText cfg sm (d :: anc) d cs = some s)
    (hs : s ≠ "") :
    tagElement cfg sm anc d cs st =
      ((if d.canSetAttr then setAttr d "data-tag-id" (Nat.repr st.idCounter) else d),
        ⟨st.idCounter + 1, st.results ++ [⟨Nat.repr st.idCounter, s⟩]⟩) := by
  unfold tagElement
  rw [hv, hm]
  simp [hs]

theorem tagElement_state_cases (cfg : VisibleTagConfig) (sm : String → ElemData → Bool)
    (anc : List ElemData) (d : ElemData) (cs : List DomNode) (st : TagState) :
    (tagElement cfg sm anc d cs st).2 = st ∨
    ∃ s, (tagElement cfg sm anc d cs st).2 =
      ⟨st.idCounter + 1, st.results ++ [⟨Nat.repr st.idCounter, s⟩]⟩ := by
  by_cases hv : isVisible d
  · cases hm : computeMarkerText cfg sm (d :: anc) d cs with
    | none =>
      left
      rw [tagElement_falsyMarker cfg sm anc d cs st (by rw [hm]; rfl)]
    | some s =>
      by_cases hs : s = ""
      · left
        rw [tagElement_falsyMarker cfg sm anc d cs st (by rw [hm, hs]; rfl)]
      · right
        exact ⟨s, by rw [tagElement_truthyMarker cfg sm anc d cs st s hv hm hs]⟩
  · left
    rw [tagElement_invisible cfg sm anc d cs st (Bool.eq_false_iff.mpr hv)]

theorem tagElement_elem_cases (cfg : VisibleTagConfig) (sm : String → ElemData → Bool)
    (anc : List ElemData) (d : ElemData) (cs : List DomNode) (st : TagState) :
    (tagElement cfg sm anc d cs st).1 = d ∨
    ∃ v, (tagElement cfg sm anc d cs st).1 = setAttr d "data-tag-id" v := by
  by_cases hv : isVisible d
  · cases hm : computeMarkerText cfg sm (d :: anc) d cs with
    | none =>
      left
      rw [tagElement_falsyMarker cfg sm anc d cs st (by rw [hm]; rfl)]
    | some s =>
      by_cases hs : s = ""
      · left
        rw [tagElement_falsyMarker cfg sm anc d cs st (by rw [hm, hs]; rfl)]
      · rw [tagElement_truthyMarker cfg sm anc d cs st s hv hm hs]
        by_cases hc : d.canSetAttr
        · right
          exact ⟨Nat.repr st.idCounter, by simp [hc]⟩
        · left
          simp [hc]
  · left
    rw [tagElement_invisible cfg sm anc d cs st (Bool.eq_false_iff.mpr hv)]

/-! ## The identifier-counter invariant of the traversal -/

mutual

theorem visitNode_counter (cfg : VisibleTagConfig) (sm : String → ElemData → Bool) :
    ∀ (anc : List ElemData) (n : DomNode) (st : TagState),
    ∃ new, (visitNode cfg sm anc n st).2.results = st.results ++ new ∧
      (visitNode cfg sm anc n st).2.idCounter = st.idCounter + new.length ∧
      new.map TagRecord.id = (List.range' st.idCounter new.length).map Nat.repr
  | _anc, DomNode.text s, st => ⟨[], by simp [visitNode]⟩
  | anc, DomNode.elem d cs, st => by
    obtain ⟨newc, hres, hcnt, hids⟩ :=
      visitNodes_counter cfg sm ((tagElement cfg sm anc d cs st).1 :: anc) cs
        (tagElement cfg sm anc d cs st).2
    rcases tagElement_state_cases cfg sm anc d cs st with hst | ⟨s, hst⟩
    · rw [hst] at hres hcnt hids
      refine ⟨newc, ?_, ?_, hids⟩
      · simp only [visitNode]
        rw [hst]
        exact hres
      · simp only [visitNode]
        rw [hst]
        exact hcnt
    · rw [hst] at hres hcnt hids
      refine ⟨⟨Nat.repr st.idCounter, s⟩ :: newc, ?_, ?_, ?_⟩
      · simp only [visitNode]
        rw [hst, hres]
        simp
      · simp only [visitNode]
        rw [hst, hcnt]
        simp only [List.length_cons]
        omega
      · simp only [List.map_cons, List.length_cons, List.range'_succ]
        rw [hids]

theorem visitNodes_counter (cfg : VisibleTagConfig) (sm : String → ElemData → Bool) :
    ∀ (anc : List ElemData) (ns : List DomNode) (st : TagState),
    ∃ new, (visitNodes cfg sm anc ns st).2.results = st.results ++ new ∧
      (visitNodes cfg sm anc ns st).2.idCounter = st.idCounter + new.length ∧
      new.map TagRecord.id = (List.range' st.idCounter new.length).map Nat.repr
  | _anc, [], st => ⟨[], by simp [visitNodes]⟩
  | anc, n :: ns, st => by
    obtain ⟨new1, hres1, hcnt1, hids1⟩ := visitNode_counter cfg sm anc n st
    obtain ⟨new2, hres2, hcnt2, hids2⟩ :=
      visitNodes_counter cfg sm anc ns (visitNode cfg sm anc n st).2
    refine ⟨new1 ++ new2, ?_, ?_, ?_⟩
    · simp [visitNodes, hres2, hres1]
    · simp [visitNodes, hcnt2, hcnt1]
      omega
    · rw [List.map_append, hids1, hids2, hcnt1, List.length_append]
      rw [← List.map_append]
      congr 1
      have := List.range'_append st.idCounter new1.length new2.length 1
      simp only [one_mul] at this
      rw [this]
      congr 1
      omega

end

theorem natRepr_inj : Function.Injective Nat.repr :=
  fun a b h => natRepr_injective a b h

theorem jsOr_chain_find (a b c d v : Option String)
    (h : [a, b, c, d].find? jsTruthy = some v) :
    jsOr a (jsOr b (jsOr c d)) = v := by
  by_cases ha : jsTruthy a = true
  · simp [List.find?, ha] at h
    rw [jsOr_truthy _ _ ha, h]
  · have ha' : jsTruthy a = false := by simpa using ha
    rw [jsOr_falsy _ _ ha']
    by_cases hb : jsTruthy b = true
    · simp [List.find?, ha', hb] at h
      rw [jsOr_truthy _ _ hb, h]
    · have hb' : jsTruthy b = false := by simpa using hb
      rw [jsOr_falsy _ _ hb']
      by_cases hc : jsTruthy c = true
      · simp [List.find?, ha', hb', hc] at h
        rw [jsOr_truthy _ _ hc, h]
      · have hc' : jsTruthy c = false := by simpa using hc
        rw [jsOr_falsy _ _ hc']
        by_cases hd : jsTruthy d = true
        · simp [List.find?, ha', hb', hc', hd] at h
          rw [h]
        · have hd' : jsTruthy d = false := by simpa using hd
          simp [List.find?, ha', hb', hc', hd'] at h

/-- C1: within one tagging pass, identifiers are assigned exactly as the
decimal strings of 1, 2, 3, … in document (pre-order) traversal order; the
identifier sequence of the output records is therefore duplicate-free and
strictly increasing numerically; an invisible element, and a visible element
whose marker text resolves to nothing, leave both the element and the state
untouched (no identifier, no record); and a visible element with a non-empty
marker text contributes exactly one record carrying the current counter
value. -/
theorem c1_tagging_identifiers :
    (∀ cfg sm body children,
      (tagPass cfg sm body children).1.map TagRecord.id =
        (List.range' 1 (tagPass cfg sm body children).1.length).map Nat.repr) ∧
    (∀ cfg sm body children,
      ((tagPass cfg sm body children).1.map TagRecord.id).Nodup) ∧
    (∀ cfg sm body children,
      ((tagPass cfg sm body children).1.map TagRecord.id).Pairwise
        (fun a b => ∃ i j : Nat, a = Nat.repr i ∧ b = Nat.repr j ∧ i < j)) ∧
    (∀ cfg sm anc d cs st, isVisible d = false →
      tagElement cfg sm anc d cs st = (d, st)) ∧
    (∀ cfg sm anc d cs st,
      jsTruthy (computeMarkerText cfg sm (d :: anc) d cs) = false →
      tagElement cfg sm anc d cs st = (d, st)) ∧
    (∀ cfg sm anc d cs st s, isVisible d = true →
      computeMarkerText cfg sm (d :: anc) d cs = some s → s ≠ "" →
      (tagElement cfg sm anc d cs st).2 =
        ⟨st.idCounter + 1, st.results ++ [⟨Nat.repr st.idCounter, s⟩]⟩) := by
  have key : ∀ cfg sm body children,
      (tagPass cfg sm body children).1.map TagRecord.id =
        (List.range' 1 (tagPass cfg sm body children).1.length).map Nat.repr := by
    intro cfg sm body children
    obtain ⟨new, hres, _, hids⟩ := visitNodes_counter cfg sm [body] children ⟨1, []⟩
    have h1 : (tagPass cfg sm body children).1 = new := by
      simp only [tagPass]
      rw [hres]
      rfl
    rw [h1]
    exact hids
  refine ⟨key, ?_, ?_, ?_, ?_, ?_⟩
  · intro cfg sm body children
    rw [key cfg sm body children]
    exact List.Nodup.map natRepr_inj (List.nodup_range' _ _)
  · intro cfg sm body children
    rw [key cfg sm body children, List.pairwise_map]
    exact (List.pairwise_lt_range' _ _).imp (fun hab => ⟨_, _, rfl, rfl, hab⟩)
  · exact tagElement_invisible
  · exact tagElement_falsyMarker
  · intro cfg sm anc d cs st s hv hm hs
    rw [tagElement_truthyMarker cfg sm anc d cs st s hv hm hs]

/-- Witness for C1: the skip clauses and the append clause at concrete
inputs. -/
theorem c1_tagging_identifiers_witness :
    tagElement cfgEmpty smFalse [bodyElem] hiddenElem [] ⟨1, []⟩ = (hiddenElem, ⟨1, []⟩) ∧
    tagElement cfgExcl smTrue [bodyElem] baseElem [DomNode.text "hi"] ⟨1, []⟩ =
      (baseElem, ⟨1, []⟩) ∧
    (tagElement cfgEmpty smFalse [bodyElem] baseElem [DomNode.text "hi"]
        ⟨2, [⟨"1", "x"⟩]⟩).2 = ⟨3, [⟨"1", "x"⟩, ⟨"2", "hi"⟩]⟩ :=
  ⟨c1_tagging_identifiers.2.2.2.1 cfgEmpty smFalse [bodyElem] hiddenElem [] ⟨1, []⟩
      (by decide),
   c1_tagging_identifiers.2.2.2.2.1 cfgExcl smTrue [bodyElem] baseElem
      [DomNode.text "hi"] ⟨1, []⟩ (by decide),
   c1_tagging_identifiers.2.2.2.2.2 cfgEmpty smFalse [bodyElem] baseElem
      [DomNode.text "hi"] ⟨2, [⟨"1", "x"⟩]⟩ "hi" (by decide) (by decide) (by decide)⟩

/-- C2: the marker text of a visible element is resolved by the strategies in
the fixed order special-tag, placeholder/aria/name, form-control, icon-class
(then exclusion check and direct text): whenever one of the four
attribute-based strategies is the first to yield a truthy label, that label is
the marker text; in particular an `INPUT` with `placeholder="Search"` resolves
to `INPUT:Search` although it also carries `title` and `id` attributes. -/
theorem c2_label_priority :
    (∀ cfg sm anc d cs v,
      [getSpecialTagText cfg d, getPlaceholderOrNameText d, getFormControlText d,
        getIconClassText cfg d].find? jsTruthy = some v →
      computeMarkerText cfg sm anc d cs = v) ∧
    computeMarkerText cfgEmpty smFalse [inputSearchElem, bodyElem] inputSearchElem [] =
      some "INPUT:Search" := by
  constructor
  · intro cfg sm anc d cs v h
    have hv : jsTruthy v = true := List.find?_some h
    have hchain : chainFour cfg d = v := jsOr_chain_find _ _ _ _ v h
    simp only [computeMarkerText, chainFour] at *
    rw [hchain, hv]
    simp
  · decide

/-- Witness for C2: the INPUT element resolves via the second strategy. -/
theorem c2_label_priority_witness :
    computeMarkerText cfgExcl smTrue [inputSearchElem] inputSearchElem [] =
      some "INPUT:Search" :=
  c2_label_priority.1 cfgExcl smTrue [inputSearchElem] inputSearchElem []
    (some "INPUT:Search") (by decide)

/-- C3 counterexample: an SVG element renders a client rectangle and has none
of the three hiding styles, yet `isVisible` classifies it as invisible
(because it is not an `HTMLElement` instance), refuting the claimed
"if and only if". -/
theorem c3_visibility_counterexample :
    isVisible svgRectElem = false ∧ 1 ≤ svgRectElem.clientRectsCount ∧
    svgRectElem.styleVisibility ≠ "hidden" ∧ svgRectElem.styleDisplay ≠ "none" ∧
    svgRectElem.styleOpacity ≠ "0" := by
  decide

/-- C3 as amended: an element is visible iff it is an `HTMLElement` instance,
renders at least one client rectangle, and its computed style has none of
`visibility:hidden`, `display:none`, `opacity:0`. -/
theorem c3_visibility_amended : ∀ d : ElemData,
    isVisible d = true ↔
      d.isHTMLElement = true ∧ 1 ≤ d.clientRectsCount ∧
      d.styleVisibility ≠ "hidden" ∧ d.styleDisplay ≠ "none" ∧
      d.styleOpacity ≠ "0" := by
  intro d
  simp only [isVisible]
  by_cases h1 : d.isHTMLElement <;> by_cases h2 : d.clientRectsCount = 0 <;>
    (simp [h1, h2, Nat.one_le_iff_ne_zero]; try tauto)

/-- Witness for C3: the plain visible DIV satisfies the amended predicate. -/
theorem c3_visibility_witness : isVisible baseElem = true :=
  (c3_visibility_amended baseElem).mpr (by decide)

/-- C5: a visible element for which the four attribute-based strategies all
fail and which is excluded (it or an ancestor matches a configured excluded
selector) receives no label and no identifier: the traversal step leaves the
element and the state unchanged, so nothing is recorded. -/
theorem c5_excluded_no_tag : ∀ cfg sm anc d cs st,
    isVisible d = true →
    jsTruthy (chainFour cfg d) = false →
    isExcluded cfg sm (d :: anc) = true →
    tagElement cfg sm anc d cs st = (d, st) := by
  intro cfg sm anc d cs st _hv hchain hex
  apply tagElement_falsyMarker
  simp [computeMarkerText, hchain, hex]

/-- Witness for C5: a visible DIV with direct text, excluded by a matching
selector, is not tagged. -/
theorem c5_excluded_no_tag_witness :
    tagElement cfgExcl smTrue [bodyElem] baseElem [DomNode.text "hello"] ⟨1, []⟩ =
      (baseElem, ⟨1, []⟩) :=
  c5_excluded_no_tag cfgExcl smTrue [bodyElem] baseElem [DomNode.text "hello"] ⟨1, []⟩
    (by decide) (by decide) (by decide)

/-! ## Lemmas for the placeholder/aria/name strategy (C4) -/

theorem jsOr_getD_pair (x y : Option String) :
    (jsOr x (jsOr y (some ""))).getD "" = (jsOr x y).getD "" := by
  rcases x with _ | s
  · rcases y with _ | t
    · rfl
    · by_cases ht : t = "" <;> simp [jsOr, ht]
  · by_cases hs : s = ""
    · rcases y with _ | t
      · simp [jsOr, hs]
      · by_cases ht : t = "" <;> simp [jsOr, hs, ht]
    · simp [jsOr, hs]

theorem triple_find (p a n : String) :
    jsOr (truthyOrNull p) (jsOr (truthyOrNull a) (truthyOrNull n)) =
      [p, a, n].find? jsTruthyStr := by
  by_cases hp : p = "" <;> by_cases ha : a = "" <;> by_cases hn : n = "" <;>
    simp [truthyOrNull, jsOr, jsTruthyStr, List.find?, hp, ha, hn]

/-- C4 counterexample: an element with a whitespace-only `placeholder` and
`data-placeholder="X"` gets no label from the source strategy, while the
claimed attribute-by-attribute rule would produce `DIV:X` — a later attribute
in the order is blocked by an earlier attribute whose value trims to empty. -/
theorem c4_placeholder_counterexample :
    placeholderAriaNameClaim wsPlaceholderElem = some "DIV:X" ∧
    getPlaceholderOrNameText wsPlaceholderElem = none := by
  decide

/-- C4 as amended: `placeholder` and `data-placeholder` form one group decided
by raw (untrimmed) truthiness — a whitespace-only `placeholder` masks
`data-placeholder` — and the group value, `aria-label` and `name` are then
tried in order with the first non-empty trimmed value winning, the label being
`tagName:value`. -/
theorem c4_placeholder_amended : ∀ d : ElemData,
    getPlaceholderOrNameText d = placeholderAriaNameAmended d := by
  intro d
  simp only [getPlaceholderOrNameText, placeholderAriaNameAmended, List.map]
  have hgroup : (match getAttr d "placeholder" with
      | some s => if s = "" then getAttr d "data-placeholder" else some s
      | none => getAttr d "data-placeholder") =
      jsOr (getAttr d "placeholder") (getAttr d "data-placeholder") := by
    rcases getAttr d "placeholder" with _ | s <;> rfl
  rw [hgroup, jsOr_getD_pair, triple_find]

/-! ## Lemmas for the locator sanitizer (C6, C10) -/

theorem cleanSelector_of_not_bad (s : String) (h : hasBadChars s = false) :
    cleanSelector s = s := by
  unfold hasBadChars at h
  have hall : ∀ c ∈ s.data, isBadChar c = false := by
    simpa [List.any_eq_false] using h
  unfold cleanSelector
  cases s with
  | mk data =>
    congr 1
    exact List.filter_eq_self.mpr (fun c hc => by simp [hall c hc])

theorem getD_map_clean (l : List String) : ∀ i : Nat,
    (l.map cleanSelector).getD i "" = cleanSelector (l.getD i "") := by
  induction l with
  | nil =>
    intro i
    have : cleanSelector "" = "" := rfl
    simp [this]
  | cons x xs ih =>
    intro i
    cases i with
    | zero => rfl
    | succ j => simpa using ih j

theorem filterIdxFrom_gt (l : List String) : ∀ i j : Nat, i < j →
    filterIdxFrom i j l = l := by
  induction l with
  | nil => intro i j _; rfl
  | cons x xs ih =>
    intro i j hij
    unfold filterIdxFrom
    rw [if_neg (by omega), ih i (j + 1) (by omega)]

theorem filterIdxFrom_eq_eraseIdx (l : List String) : ∀ i j : Nat, j ≤ i →
    filterIdxFrom i j l = l.eraseIdx (i - j) := by
  induction l with
  | nil => intro i j _; simp [filterIdxFrom]
  | cons x xs ih =>
    intro i j hij
    unfold filterIdxFrom
    by_cases hji : j = i
    · rw [if_pos hji, filterIdxFrom_gt xs i (j + 1) (by omega)]
      have h0 : i - j = 0 := by omega
      rw [h0]
      rfl
    · rw [if_neg hji, ih i (j + 1) (by omega)]
      have h1 : i - j = (i - (j + 1)) + 1 := by omega
      rw [h1]
      rfl

theorem filterIdxFrom_map (f : String → String) (l : List String) : ∀ i j : Nat,
    filterIdxFrom i j (l.map f) = (filterIdxFrom i j l).map f := by
  induction l with
  | nil => intro i j; rfl
  | cons x xs ih =>
    intro i j
    simp only [List.map_cons]
    unfold filterIdxFrom
    by_cases h : j = i
    · rw [if_pos h, if_pos h, ih]
    · rw [if_neg h, if_neg h, List.map_cons, ih]

theorem findIdx?_lt_length {α : Type} (p : α → Bool) (l : List α) : ∀ j i : Nat,
    List.findIdx? p l j = some i → i < j + l.length := by
  induction l with
  | nil => intro j i h; simp [List.findIdx?] at h
  | cons x xs ih =>
    intro j i h
    simp only [List.findIdx?] at h
    split at h
    · simp at h
      simp only [List.length_cons]
      omega
    · have := ih (j + 1) i h
      simp only [List.length_cons]
      omega

theorem specPreferredIdx_lt (sels : List String) (h : sels ≠ []) :
    specPreferredIdx sels < sels.length := by
  unfold specPreferredIdx
  cases h1 : sels.findIdx? (fun sel => !hasBadChars sel && isValid sel) with
  | some i => simpa using findIdx?_lt_length _ _ 0 i h1
  | none =>
    cases h2 : (sels.map cleanSelector).findIdx?
        (fun sel => isValid sel && (jsTrim sel).length > 0) with
    | some i =>
      have := findIdx?_lt_length _ _ 0 i h2
      simpa [List.length_map] using this
    | none =>
      cases sels with
      | nil => exact absurd rfl h
      | cons a l => simp

theorem sanitizeSelectors_eq (result : Option LocatorResult)
    (h : ¬ extractSelectors result = []) :
    sanitizeSelectors result =
      ((extractSelectors result).map cleanSelector).getD
          (specPreferredIdx (extractSelectors result)) "" ::
        filterIdxFrom (specPreferredIdx (extractSelectors result)) 0
          ((extractSelectors result).map cleanSelector) := by
  simp only [sanitizeSelectors, specPreferredIdx]
  rw [if_neg h]

/-- C6 counterexample: for the single candidate `badCandidate` (a NUL
character followed by `a=""`), no candidate is simultaneously not-bad and
valid, and no cleaned candidate is valid, so the claimed rule (c) applies;
yet the sanitizer's first output is the cleaned form, not the original first
candidate. -/
theorem c6_sanitizer_counterexample :
    extractSelectors locBadResult = [badCandidate] ∧
    (extractSelectors locBadResult).findIdx?
      (fun sel => !hasBadChars sel && isValid sel) = none ∧
    ((extractSelectors locBadResult).map cleanSelector).findIdx?
      (fun sel => isValid sel && (jsTrim sel).length > 0) = none ∧
    sanitizeSelectors locBadResult = ["a=\"\""] ∧
    "a=\"\"" ≠ badCandidate := by
  decide

/-- C6 as amended: for a non-empty candidate list the sanitizer picks the
index given by the preference rule — (a) first original candidate with no bad
characters and valid, else (b) first candidate whose cleaned form is valid and
non-blank, else (c) index 0 — and returns the *cleaned form* of that candidate
first, followed by the remaining candidates in original relative order in
cleaned form; when preference (a) applies the cleaned winner coincides with
the original since cleaning is the identity on selectors without bad
characters; on the specification's example the invalid first candidate is
skipped and `button.ok` comes first. -/
theorem c6_sanitizer_amended :
    (∀ result, extractSelectors result ≠ [] →
      sanitizeSelectors result =
        cleanSelector ((extractSelectors result).getD
            (specPreferredIdx (extractSelectors result)) "") ::
          ((extractSelectors result).eraseIdx
            (specPreferredIdx (extractSelectors result))).map cleanSelector) ∧
    (∀ s, hasBadChars s = false → cleanSelector s = s) ∧
    sanitizeSelectors locExampleResult = ["button.ok", "div[data-x=\"\"]"] := by
  refine ⟨?_, cleanSelector_of_not_bad, by decide⟩
  intro result hne
  rw [sanitizeSelectors_eq result hne, getD_map_clean, filterIdxFrom_map,
    filterIdxFrom_eq_eraseIdx _ _ 0 (Nat.zero_le _), Nat.sub_zero]

/-- Witness for C6: the amended characterization evaluated on the
specification's example. -/
theorem c6_sanitizer_amended_witness :
    sanitizeSelectors locExampleResult =
      cleanSelector ((extractSelectors locExampleResult).getD
          (specPreferredIdx (extractSelectors locExampleResult)) "") ::
        ((extractSelectors locExampleResult).eraseIdx
          (specPreferredIdx (extractSelectors locExampleResult))).map cleanSelector :=
  c6_sanitizer_amended.1 locExampleResult (by decide)

/-- C7 counterexample: a config file whose `directTextMaxLen` has the wrong
type (a string) does not make loading throw — the loader succeeds and
silently substitutes the default 10. -/
theorem c7_config_counterexample :
    jsGet cfgBadJson "directTextMaxLen" = some (Json.str "big") ∧
    readVisibleTagConfig envBadLen = Except.ok ⟨[], [], [], 10⟩ :=
  ⟨rfl, rfl⟩

/-- C7 as amended: loading throws exactly when the env var is missing or
empty, the config file is missing, the JSON does not parse, or one of
`excludedSelectors`/`iconClassKeywords`/`specialTagNames` is not an array; a
`directTextMaxLen` that is not a positive number is not an error — on success
the returned value is either the file's positive number or the silent default
10. -/
theorem c7_config_amended :
    (∀ env : ConfigEnv,
      (readVisibleTagConfig env).isOk = false ↔
        env.envPath = none ∨ env.envPath = some "" ∨ env.fileExists = false ∨
        (∃ e, env.parseResult = Except.error e) ∨
        (∃ cfg, env.parseResult = Except.ok cfg ∧
          (isJsonArray (jsGet cfg "excludedSelectors") = false ∨
           isJsonArray (jsGet cfg "iconClassKeywords") = false ∨
           isJsonArray (jsGet cfg "specialTagNames") = false))) ∧
    (∀ env rc, readVisibleTagConfig env = Except.ok rc →
      rc.directTextMaxLen = 10 ∨
        (0 < rc.directTextMaxLen ∧ ∃ cfg, env.parseResult = Except.ok cfg ∧
          jsGet cfg "directTextMaxLen" = some (Json.num rc.directTextMaxLen))) := by
  constructor
  · intro env
    obtain ⟨ep, fe, pr⟩ := env
    cases ep with
    | none => simp [readVisibleTagConfig, Except.isOk, Except.toBool]
    | some p =>
      by_cases hp : p = ""
      · simp [readVisibleTagConfig, hp, Except.isOk, Except.toBool]
      · cases fe with
        | false => simp [readVisibleTagConfig, hp, Except.isOk, Except.toBool]
        | true =>
          cases pr with
          | error e => simp [readVisibleTagConfig, hp, Except.isOk, Except.toBool]
          | ok cfg =>
            simp only [readVisibleTagConfig, Bool.not_true, Bool.false_eq_true,
              if_neg hp, ite_false, Bool.not_false, ite_true]
            by_cases harr : (!isJsonArray (jsGet cfg "excludedSelectors") ||
                !isJsonArray (jsGet cfg "iconClassKeywords") ||
                !isJsonArray (jsGet cfg "specialTagNames")) = true
            · rw [if_pos harr]
              simp only [Bool.or_eq_true, Bool.not_eq_true'] at harr
              simp [Except.isOk, Except.toBool, hp]
              tauto
            · rw [if_neg harr]
              simp only [Bool.or_eq_true, Bool.not_eq_true'] at harr
              push_neg at harr
              simp only [ne_eq, Bool.not_eq_false] at harr
              simp [Except.isOk, Except.toBool, hp, harr.1.1, harr.1.2, harr.2]
  · intro env rc h
    obtain ⟨ep, fe, pr⟩ := env
    cases ep with
    | none => simp [readVisibleTagConfig] at h
    | some p =>
      by_cases hp : p = ""
      · simp [readVisibleTagConfig, hp] at h
      · cases fe with
        | false => simp [readVisibleTagConfig, hp] at h
        | true =>
          cases pr with
          | error e => simp [readVisibleTagConfig, hp] at h
          | ok cfg =>
            simp only [readVisibleTagConfig, Bool.not_true, if_neg hp,
              ite_false, Bool.not_false, ite_true] at h
            by_cases harr : (!isJsonArray (jsGet cfg "excludedSelectors") ||
                !isJsonArray (jsGet cfg "iconClassKeywords") ||
                !isJsonArray (jsGet cfg "specialTagNames")) = true
            · rw [if_pos harr] at h
              exact absurd h (by simp)
            · rw [if_neg harr] at h
              injection h with h'
              subst h'
              cases hj : jsGet cfg "directTextMaxLen" with
              | none => left; simp [hj]
              | some j =>
                cases j with
                | num n =>
                  by_cases hn : 0 < n
                  · right
                    refine ⟨by simp [hj, hn], cfg, rfl, by simp [hj, hn]⟩
                  · left; simp [hj, hn]
                | null => left; simp [hj]
                | bool b => left; simp [hj]
                | str s => left; simp [hj]
                | arr l => left; simp [hj]
                | obj o => left; simp [hj]

/-- Witness for C7: the loader rejects a missing environment variable, and the
ill-typed `directTextMaxLen` environment loads with the default. -/
theorem c7_config_amended_witness :
    (readVisibleTagConfig envMissingVar).isOk = false ∧
    ((readVisibleTagConfig envBadLen).isOk = false ↔
      envBadLen.envPath = none ∨ envBadLen.envPath = some "" ∨
      envBadLen.fileExists = false ∨
      (∃ e, envBadLen.parseResult = Except.error e) ∨
      (∃ cfg, envBadLen.parseResult = Except.ok cfg ∧
        (isJsonArray (jsGet cfg "excludedSelectors") = false ∨
         isJsonArray (jsGet cfg "iconClassKeywords") = false ∨
         isJsonArray (jsGet cfg "specialTagNames") = false))) :=
  ⟨(c7_config_amended.1 envMissingVar).mpr (Or.inl rfl),
   c7_config_amended.1 envBadLen⟩

/-! ## Truncation bound (C8) -/

theorem truncate_spec (s : String) (n : Nat) (marker : String) :
    (truncateWithMarker s n marker).length ≤ n + marker.length ∧
    (s.length ≤ n → truncateWithMarker s n marker = s) := by
  unfold truncateWithMarker
  by_cases h : s.length > n
  · rw [if_pos h]
    constructor
    · show (String.mk (s.data.take n ++ marker.data)).length ≤ n + marker.length
      simp only [String.length, List.length_append, List.length_take]
      omega
    · intro h2
      omega
  · rw [if_neg h]
    refine ⟨?_, fun _ => rfl⟩
    simp only [String.length] at h ⊢
    omega

/-- C8: for both the text and the HTML tool, the truncated output never
exceeds the resolved `maxLength` (default 20000) plus the marker length, and
an input no longer than `maxLength` is returned unchanged with no marker. -/
theorem c8_truncation : ∀ (s : String) (m : Option Nat),
    ((visibleTextOutput s m).length ≤
        resolveMaxLength m + textTruncationMarker.length ∧
      (s.length ≤ resolveMaxLength m → visibleTextOutput s m = s)) ∧
    ((visibleHtmlOutput s m).length ≤
        resolveMaxLength m + htmlTruncationMarker.length ∧
      (s.length ≤ resolveMaxLength m → visibleHtmlOutput s m = s)) :=
  fun s m =>
    ⟨truncate_spec s (resolveMaxLength m) textTruncationMarker,
     truncate_spec s (resolveMaxLength m) htmlTruncationMarker⟩

/-- Witness for C8: short inputs pass through both tools unchanged. -/
theorem c8_truncation_witness :
    visibleTextOutput "ab" (some 5) = "ab" ∧ visibleHtmlOutput "ab" none = "ab" :=
  ⟨(c8_truncation "ab" (some 5)).1.2 (by decide),
   (c8_truncation "ab" none).2.2 (by decide)⟩

/-- C10: the sanitizer returns the empty list on a null result, on a result
with neither field, and on a result whose `selector` is the empty string; and
for every input the output has exactly as many entries as the extracted
candidate list. -/
theorem c10_sanitizer_shape :
    sanitizeSelectors none = [] ∧
    sanitizeSelectors (some ⟨none, none⟩) = [] ∧
    sanitizeSelectors (some ⟨none, some ""⟩) = [] ∧
    (∀ result, (sanitizeSelectors result).length = (extractSelectors result).length) := by
  refine ⟨rfl, rfl, rfl, ?_⟩
  intro result
  by_cases h : extractSelectors result = []
  · have hnil : sanitizeSelectors result = [] := by
      simp only [sanitizeSelectors]
      rw [if_pos h]
    rw [hnil, h]
  · rw [sanitizeSelectors_eq result h, filterIdxFrom_map,
      filterIdxFrom_eq_eraseIdx _ _ 0 (Nat.zero_le _), Nat.sub_zero]
    have hlt := specPreferredIdx_lt _ h
    have hpos : 0 < (extractSelectors result).length := by
      cases hx : extractSelectors result with
      | nil => exact absurd hx h
      | cons a l => simp
    simp only [List.length_cons, List.length_map]
    rw [List.length_eraseIdx, if_pos hlt]
    omega

/-! ## Congruence machinery for the round-trip claim (C9)

Every read the tagging pass performs factors through the
`data-tag-id`-erased projection of the tree (given a matcher that ignores
that attribute), and every write it performs is invisible to that
projection. -/

theorem erase_congr_fields (d1 d2 : ElemData) (h : eraseTagAttr d1 = eraseTagAttr d2) :
    d1.tagName = d2.tagName ∧ d1.isHTMLElement = d2.isHTMLElement ∧
    d1.isInputElement = d2.isInputElement ∧ d1.isTextAreaElement = d2.isTextAreaElement ∧
    d1.isSelectElement = d2.isSelectElement ∧ d1.clientRectsCount = d2.clientRectsCount ∧
    d1.styleVisibility = d2.styleVisibility ∧ d1.styleDisplay = d2.styleDisplay ∧
    d1.styleOpacity = d2.styleOpacity ∧ d1.classList = d2.classList ∧
    d1.canSetAttr = d2.canSetAttr := by
  obtain ⟨a1, b1, c1, e1, f1, g1, i1, j1, k1, l1, m1, n1⟩ := d1
  obtain ⟨a2, b2, c2, e2, f2, g2, i2, j2, k2, l2, m2, n2⟩ := d2
  simp only [eraseTagAttr, ElemData.mk.injEq] at h
  exact ⟨h.1, h.2.1, h.2.2.1, h.2.2.2.1, h.2.2.2.2.1, h.2.2.2.2.2.1,
    h.2.2.2.2.2.2.1, h.2.2.2.2.2.2.2.1, h.2.2.2.2.2.2.2.2.1,
    h.2.2.2.2.2.2.2.2.2.2.1, h.2.2.2.2.2.2.2.2.2.2.2⟩

theorem findAttr_filter_ne (l : List (String × String)) (k : String)
    (hk : ¬ k = "data-tag-id") :
    findAttr (l.filter (fun p => p.1 ≠ "data-tag-id")) k = findAttr l k := by
  unfold findAttr
  rw [List.find?_filter]
  have hfun : (fun (a : String × String) =>
        decide (decide (a.1 ≠ "data-tag-id") = true ∧ decide (a.1 = k) = true)) =
      (fun (a : String × String) => decide (a.1 = k)) := by
    funext a
    by_cases h2 : a.1 = k
    · simp [h2, fun hc : k = "data-tag-id" => hk hc]
    · simp [h2]
  rw [hfun]

theorem getAttr_congr (d1 d2 : ElemData) (h : eraseTagAttr d1 = eraseTagAttr d2)
    (k : String) (hk : ¬ k = "data-tag-id") : getAttr d1 k = getAttr d2 k := by
  have h1 : (eraseTagAttr d1).attrs = (eraseTagAttr d2).attrs := congrArg ElemData.attrs h
  have e1 := findAttr_filter_ne d1.attrs k hk
  have e2 := findAttr_filter_ne d2.attrs k hk
  unfold getAttr
  rw [← e1, ← e2]
  exact congrArg (fun l => findAttr l k) h1

theorem getSpecialTagText_congr (cfg : VisibleTagConfig) (d1 d2 : ElemData)
    (h : eraseTagAttr d1 = eraseTagAttr d2) :
    getSpecialTagText cfg d1 = getSpecialTagText cfg d2 := by
  unfold getSpecialTagText
  rw [(erase_congr_fields d1 d2 h).1]

theorem getPlaceholderOrNameText_congr (d1 d2 : ElemData)
    (h : eraseTagAttr d1 = eraseTagAttr d2) :
    getPlaceholderOrNameText d1 = getPlaceholderOrNameText d2 := by
  unfold getPlaceholderOrNameText
  rw [getAttr_congr d1 d2 h "placeholder" (by decide),
    getAttr_congr d1 d2 h "data-placeholder" (by decide),
    getAttr_congr d1 d2 h "aria-label" (by decide),
    getAttr_congr d1 d2 h "name" (by decide),
    (erase_congr_fields d1 d2 h).1]

theorem getFormControlText_congr (d1 d2 : ElemData)
    (h : eraseTagAttr d1 = eraseTagAttr d2) :
    getFormControlText d1 = getFormControlText d2 := by
  obtain ⟨ht, _, hi, hta, hse, _⟩ := erase_congr_fields d1 d2 h
  unfold getFormControlText
  rw [hi, hta, hse, getAttr_congr d1 d2 h "title" (by decide),
    getAttr_congr d1 d2 h "id" (by decide), ht]

theorem getIconClassText_congr (cfg : VisibleTagConfig) (d1 d2 : ElemData)
    (h : eraseTagAttr d1 = eraseTagAttr d2) :
    getIconClassText cfg d1 = getIconClassText cfg d2 := by
  unfold getIconClassText
  rw [(erase_congr_fields d1 d2 h).2.2.2.2.2.2.2.2.2.1]

theorem chainFour_congr (cfg : VisibleTagConfig) (d1 d2 : ElemData)
    (h : eraseTagAttr d1 = eraseTagAttr d2) : chainFour cfg d1 = chainFour cfg d2 := by
  unfold chainFour
  rw [getSpecialTagText_congr cfg d1 d2 h, getPlaceholderOrNameText_congr d1 d2 h,
    getFormControlText_congr d1 d2 h, getIconClassText_congr cfg d1 d2 h]

theorem isVisible_congr (d1 d2 : ElemData) (h : eraseTagAttr d1 = eraseTagAttr d2) :
    isVisible d1 = isVisible d2 := by
  obtain ⟨_, hh, _, _, _, hc, hv, hd', ho, _⟩ := erase_congr_fields d1 d2 h
  unfold isVisible
  rw [hh, hc, hv, hd', ho]

theorem getDirectText_congr (cfg : VisibleTagConfig) : ∀ (cs1 cs2 : List DomNode),
    eraseNodes cs1 = eraseNodes cs2 → getDirectText cfg cs1 = getDirectText cfg cs2 := by
  intro cs1
  induction cs1 with
  | nil =>
    intro cs2 h
    cases cs2 with
    | nil => rfl
    | cons m ms => simp [eraseNodes] at h
  | cons n ns ih =>
    intro cs2 h
    cases cs2 with
    | nil => simp [eraseNodes] at h
    | cons m ms =>
      simp only [eraseNodes] at h
      injection h with h1 h2
      cases n with
      | text s =>
        cases m with
        | text t =>
          have hst : s = t := by
            simpa [eraseNode] using h1
          subst hst
          simp only [getDirectText]
          by_cases hs : s = ""
          · simp [hs, ih ms h2]
          · simp only [hs, ite_false, if_neg hs]
            by_cases ht : jsTrim s = ""
            · simp [ht, ih ms h2]
            · simp [ht]
        | elem dd cc => simp [eraseNode] at h1
      | elem dd cc =>
        cases m with
        | text t => simp [eraseNode] at h1
        | elem ee ff =>
          simp only [getDirectText]
          exact ih ms h2

theorem any_sm_congr (sm : String → ElemData → Bool) (H : TagIdInsensitive sm)
    (sel : String) : ∀ (l1 l2 : List ElemData),
    l1.map eraseTagAttr = l2.map eraseTagAttr →
    l1.any (fun d => sm sel d) = l2.any (fun d => sm sel d) := by
  intro l1
  induction l1 with
  | nil =>
    intro l2 h
    cases l2 with
    | nil => rfl
    | cons e es => simp at h
  | cons d ds ih =>
    intro l2 h
    cases l2 with
    | nil => simp at h
    | cons e es =>
      simp only [List.map_cons] at h
      injection h with h1 h2
      simp only [List.any_cons]
      rw [ih es h2, show sm sel d = sm sel e by rw [H sel d, H sel e, h1]]

theorem isExcluded_congr (cfg : VisibleTagConfig) (sm : String → ElemData → Bool)
    (H : TagIdInsensitive sm) (l1 l2 : List ElemData)
    (h : l1.map eraseTagAttr = l2.map eraseTagAttr) :
    isExcluded cfg sm l1 = isExcluded cfg sm l2 := by
  unfold isExcluded
  generalize cfg.excludedSelectors = sels
  induction sels with
  | nil => rfl
  | cons sel rest ih =>
    simp only [List.any_cons]
    rw [any_sm_congr sm H sel l1 l2 h, ih]

theorem computeMarkerText_congr (cfg : VisibleTagConfig) (sm : String → ElemData → Bool)
    (H : TagIdInsensitive sm) (anc1 anc2 : List ElemData) (d1 d2 : ElemData)
    (cs1 cs2 : List DomNode)
    (hanc : anc1.map eraseTagAttr = anc2.map eraseTagAttr)
    (hd : eraseTagAttr d1 = eraseTagAttr d2)
    (hcs : eraseNodes cs1 = eraseNodes cs2) :
    computeMarkerText cfg sm (d1 :: anc1) d1 cs1 =
      computeMarkerText cfg sm (d2 :: anc2) d2 cs2 := by
  unfold computeMarkerText
  rw [chainFour_congr cfg d1 d2 hd,
    isExcluded_congr cfg sm H (d1 :: anc1) (d2 :: anc2) (by simp [hd, hanc]),
    getDirectText_congr cfg cs1 cs2 hcs]

theorem filter_setAttrList (l : List (String × String)) (v : String) :
    (setAttrList l "data-tag-id" v).filter (fun p => p.1 ≠ "data-tag-id") =
      l.filter (fun p => p.1 ≠ "data-tag-id") := by
  induction l with
  | nil => simp [setAttrList]
  | cons p rest ih =>
    obtain ⟨k', v'⟩ := p
    by_cases h1 : k' = "data-tag-id"
    · subst h1
      simp [setAttrList]
    · simp only [setAttrList, if_neg h1]
      simp only [List.filter_cons]
      rw [ih]

theorem eraseTagAttr_setAttr (d : ElemData) (v : String) :
    eraseTagAttr (setAttr d "data-tag-id" v) = eraseTagAttr d := by
  obtain ⟨a, b, c, e, f, g, i, j, k, l, m, n⟩ := d
  simp only [eraseTagAttr, setAttr]
  rw [filter_setAttrList]

theorem eraseTagAttr_tagElement (cfg : VisibleTagConfig) (sm : String → ElemData → Bool)
    (anc : List ElemData) (d : ElemData) (cs : List DomNode) (st : TagState) :
    eraseTagAttr (tagElement cfg sm anc d cs st).1 = eraseTagAttr d := by
  rcases tagElement_elem_cases cfg sm anc d cs st with h | ⟨v, h⟩
  · rw [h]
  · rw [h, eraseTagAttr_setAttr]

theorem tagElement_congr (cfg : VisibleTagConfig) (sm : String → ElemData → Bool)
    (H : TagIdInsensitive sm) (anc1 anc2 : List ElemData) (d1 d2 : ElemData)
    (cs1 cs2 : List DomNode) (st : TagState)
    (hanc : anc1.map eraseTagAttr = anc2.map eraseTagAttr)
    (hd : eraseTagAttr d1 = eraseTagAttr d2)
    (hcs : eraseNodes cs1 = eraseNodes cs2) :
    (tagElement cfg sm anc1 d1 cs1 st).2 = (tagElement cfg sm anc2 d2 cs2 st).2 := by
  have hmeq := computeMarkerText_congr cfg sm H anc1 anc2 d1 d2 cs1 cs2 hanc hd hcs
  by_cases hv : isVisible d1 = true
  · have hv2 : isVisible d2 = true := by rw [← isVisible_congr d1 d2 hd]; exact hv
    cases hm : computeMarkerText cfg sm (d2 :: anc2) d2 cs2 with
    | none =>
      have hm1 : computeMarkerText cfg sm (d1 :: anc1) d1 cs1 = none := by rw [hmeq, hm]
      rw [tagElement_falsyMarker cfg sm anc1 d1 cs1 st (by rw [hm1]; rfl),
        tagElement_falsyMarker cfg sm anc2 d2 cs2 st (by rw [hm]; rfl)]
    | some s =>
      have hm1 : computeMarkerText cfg sm (d1 :: anc1) d1 cs1 = some s := by rw [hmeq, hm]
      by_cases hs : s = ""
      · rw [tagElement_falsyMarker cfg sm anc1 d1 cs1 st (by rw [hm1, hs]; rfl),
          tagElement_falsyMarker cfg sm anc2 d2 cs2 st (by rw [hm, hs]; rfl)]
      · rw [tagElement_truthyMarker cfg sm anc1 d1 cs1 st s hv hm1 hs,
          tagElement_truthyMarker cfg sm anc2 d2 cs2 st s hv2 hm hs]
  · have hv1 : isVisible d1 = false := by simpa using hv
    have hv2 : isVisible d2 = false := by rw [← isVisible_congr d1 d2 hd]; exact hv1
    rw [tagElement_invisible cfg sm anc1 d1 cs1 st hv1,
      tagElement_invisible cfg sm anc2 d2 cs2 st hv2]

mutual

theorem visitNode_congr (cfg : VisibleTagConfig) (sm : String → ElemData → Bool)
    (H : TagIdInsensitive sm) :
    ∀ (anc1 anc2 : List ElemData) (n1 n2 : DomNode) (st : TagState),
    anc1.map eraseTagAttr = anc2.map eraseTagAttr →
    eraseNode n1 = eraseNode n2 →
    (visitNode cfg sm anc1 n1 st).2 = (visitNode cfg sm anc2 n2 st).2 ∧
    eraseNode (visitNode cfg sm anc1 n1 st).1 = eraseNode (visitNode cfg sm anc2 n2 st).1
  | _anc1, _anc2, DomNode.text s, DomNode.text t, st => fun _hanc hn => by
    have hst : s = t := by simpa [eraseNode] using hn
    subst hst
    exact ⟨rfl, rfl⟩
  | _anc1, _anc2, DomNode.text _, DomNode.elem _ _, _st => fun _hanc hn => by
    simp [eraseNode] at hn
  | _anc1, _anc2, DomNode.elem _ _, DomNode.text _, _st => fun _hanc hn => by
    simp [eraseNode] at hn
  | anc1, anc2, DomNode.elem d1 cs1, DomNode.elem d2 cs2, st => fun hanc hn => by
    simp only [eraseNode] at hn
    injection hn with hd hcs
    have hstate := tagElement_congr cfg sm H anc1 anc2 d1 d2 cs1 cs2 st hanc hd hcs
    have he1 := eraseTagAttr_tagElement cfg sm anc1 d1 cs1 st
    have he2 := eraseTagAttr_tagElement cfg sm anc2 d2 cs2 st
    have hancrec : ((tagElement cfg sm anc1 d1 cs1 st).1 :: anc1).map eraseTagAttr =
        ((tagElement cfg sm anc2 d2 cs2 st).1 :: anc2).map eraseTagAttr := by
      simp only [List.map_cons, hanc]
      rw [he1, he2, hd]
    have hrec := visitNodes_congr cfg sm H
      ((tagElement cfg sm anc1 d1 cs1 st).1 :: anc1)
      ((tagElement cfg sm anc2 d2 cs2 st).1 :: anc2)
      cs1 cs2 (tagElement cfg sm anc1 d1 cs1 st).2 hancrec hcs
    constructor
    · simp only [visitNode]
      rw [← hstate]
      exact hrec.1
    · simp only [visitNode, eraseNode]
      rw [← hstate, he1, he2, hd, hrec.2]

theorem visitNodes_congr (cfg : VisibleTagConfig) (sm : String → ElemData → Bool)
    (H : TagIdInsensitive sm) :
    ∀ (anc1 anc2 : List ElemData) (ns1 ns2 : List DomNode) (st : TagState),
    anc1.map eraseTagAttr = anc2.map eraseTagAttr →
    eraseNodes ns1 = eraseNodes ns2 →
    (visitNodes cfg sm anc1 ns1 st).2 = (visitNodes cfg sm anc2 ns2 st).2 ∧
    eraseNodes (visitNodes cfg sm anc1 ns1 st).1 =
      eraseNodes (visitNodes cfg sm anc2 ns2 st).1
  | _anc1, _anc2, [], [], _st => fun _ _ => ⟨rfl, rfl⟩
  | _anc1, _anc2, [], _n :: _ns, _st => fun _ h => by simp [eraseNodes] at h
  | _anc1, _anc2, _n :: _ns, [], _st => fun _ h => by simp [eraseNodes] at h
  | anc1, anc2, n1 :: ns1, n2 :: ns2, st => fun hanc h => by
    simp only [eraseNodes] at h
    injection h with h1 h2
    have hhead := visitNode_congr cfg sm H anc1 anc2 n1 n2 st hanc h1
    have hrec := visitNodes_congr cfg sm H anc1 anc2 ns1 ns2
      (visitNode cfg sm anc1 n1 st).2 hanc h2
    constructor
    · simp only [visitNodes]
      rw [← hhead.1]
      exact hrec.1
    · simp only [visitNodes, eraseNodes]
      rw [← hhead.1, hhead.2, hrec.2]

end

mutual

theorem visitNode_erase (cfg : VisibleTagConfig) (sm : String → ElemData → Bool) :
    ∀ (anc : List ElemData) (n : DomNode) (st : TagState),
    eraseNode (visitNode cfg sm anc n st).1 = eraseNode n
  | _anc, DomNode.text _, _st => rfl
  | anc, DomNode.elem d cs, st => by
    simp only [visitNode, eraseNode]
    rw [eraseTagAttr_tagElement cfg sm anc d cs st,
      visitNodes_erase cfg sm ((tagElement cfg sm anc d cs st).1 :: anc) cs
        (tagElement cfg sm anc d cs st).2]

theorem visitNodes_erase (cfg : VisibleTagConfig) (sm : String → ElemData → Bool) :
    ∀ (anc : List ElemData) (ns : List DomNode) (st : TagState),
    eraseNodes (visitNodes cfg sm anc ns st).1 = eraseNodes ns
  | _anc, [], _st => rfl
  | anc, n :: ns, st => by
    simp only [visitNodes, eraseNodes]
    rw [visitNode_erase cfg sm anc n st,
      visitNodes_erase cfg sm anc ns (visitNode cfg sm anc n st).2]

end

/-- C9 counterexample: with the excluded selector `[data-tag-id]` — the very
attribute the pass writes — and a matcher that honours it, running the pass a
second time on the tree the first run mutated yields a different record
sequence (the element tagged by run one is excluded in run two), although
nothing external mutated the DOM and the configuration is unchanged. -/
theorem c9_roundtrip_counterexample :
    (tagPass tagIdCfg attrMatcher bodyElem
        (tagPass tagIdCfg attrMatcher bodyElem [divWithText]).2).1 ≠
      (tagPass tagIdCfg attrMatcher bodyElem [divWithText]).1 := by
  decide

/-- C9 as amended: when no configured selector's matching depends on the
`data-tag-id` attribute (the matcher cannot distinguish an element from its
`data-tag-id`-erased projection), tagging the same page twice — the second run
on the tree mutated by the first — yields identical record sequences. -/
theorem c9_roundtrip_amended : ∀ (cfg : VisibleTagConfig) (sm : String → ElemData → Bool),
    TagIdInsensitive sm → ∀ (body : ElemData) (children : List DomNode),
    (tagPass cfg sm body (tagPass cfg sm body children).2).1 =
      (tagPass cfg sm body children).1 := by
  intro cfg sm H body children
  have herase : eraseNodes (tagPass cfg sm body children).2 = eraseNodes children :=
    visitNodes_erase cfg sm [body] children ⟨1, []⟩
  have hcong := visitNodes_congr cfg sm H [body] [body]
    (tagPass cfg sm body children).2 children ⟨1, []⟩ rfl herase
  exact congrArg TagState.results hcong.1

/-- Witness for C9: with a matcher that ignores `data-tag-id`, the second pass
over the mutated example tree reproduces the first pass's records. -/
theorem c9_roundtrip_amended_witness :
    (tagPass cfgEmpty smFalse bodyElem
        (tagPass cfgEmpty smFalse bodyElem [divWithText]).2).1 =
      (tagPass cfgEmpty smFalse bodyElem [divWithText]).1 :=
  c9_roundtrip_amended cfgEmpty smFalse (fun _ _ => rfl) bodyElem [divWithText]

end VisiblePage
